import Mathlib

/-!
Shallow embedding of the response-parsing and sensor-registry core of the
weewx-ecowitt_local_http driver, and proofs of the specified properties.

The repository ships the driver's unit-test suite
(`bin/user/tests/test_http.py`) but the driver module `user/ecowitt_http.py`
itself is not present; the parser and sensor-registry definitions below are
therefore modelled from the specification's algorithm descriptions, with the
static tables (unit lookup, sensor addresses, sentinel ids) taken verbatim
from the constants asserted by the test suite.
-/

namespace EcowittHttp

/-! ## Character and list utilities (structural, kernel-reducible) -/

/-- Concatenation of the images of a list under a list-valued function. -/
def listFlatMap (f : α → List β) : List α → List β
  | [] => []
  | a :: as => f a ++ listFlatMap f as

/-- Space test for trimming. -/
def isSpace (c : Char) : Bool := c == ' '

/-- Strip leading and trailing spaces from a character list. -/
def trimChars (cs : List Char) : List Char :=
  ((cs.dropWhile isSpace).reverse.dropWhile isSpace).reverse

/-- Lower-case a character list and pack it into a string. -/
def lowerStr (cs : List Char) : String :=
  String.mk (cs.map Char.toLower)

/-- Numeric value of a list of decimal digit characters. -/
def digitsVal (cs : List Char) : Nat :=
  cs.foldl (fun a c => a * 10 + (c.toNat - 48)) 0

/-- Parse a nonempty all-digit character list to a natural number. -/
def parseNatDigits (cs : List Char) : Option Nat :=
  if !cs.isEmpty && cs.all Char.isDigit then some (digitsVal cs) else none

/-- Split a character list at every occurrence of the dot character. -/
def splitDot : List Char → List (List Char)
  | [] => [[]]
  | c :: rest =>
    if c == '.' then [] :: splitDot rest
    else
      match splitDot rest with
      | p :: ps => (c :: p) :: ps
      | [] => [[c]]

end EcowittHttp

namespace EcowittHttp

/-- Character class used by the numeric-extraction regex: digits and the
decimal point. -/
def isNumChar (c : Char) : Bool := c.isDigit || c == '.'

/-- Convert an unsigned numeric character list (digits with at most one
embedded dot) to a scaled pair (mantissa, positive power-of-ten
denominator), or fail. -/
def parseDecimalCore (cs : List Char) : Option (Nat × Nat) :=
  match splitDot cs with
  | [a] =>
    if !a.isEmpty && a.all Char.isDigit then some (digitsVal a, 1) else none
  | [a, b] =>
    if !(a.isEmpty && b.isEmpty) && a.all Char.isDigit && b.all Char.isDigit then
      some (digitsVal a * 10 ^ b.length + digitsVal b, 10 ^ b.length)
    else none
  | _ => none

/-- Modelled from the spec: regex-based numeric extraction "tolerating
leading sign and decimal point" (spec 4.1 step 5); fails when no numeric
match exists (no digit at all) or when conversion fails. Decimal strings
denote exact rationals in this model, built with a single mkRat so that
magnitudes stay kernel-computable. -/
def parseNumeric (cs : List Char) : Option ℚ :=
  if cs.any Char.isDigit then
    match cs with
    | '-' :: rest => (parseDecimalCore rest).map (fun p => mkRat (-(p.1 : Int)) p.2)
    | '+' :: rest => (parseDecimalCore rest).map (fun p => mkRat (p.1 : Int) p.2)
    | _ => (parseDecimalCore cs).map (fun p => mkRat (p.1 : Int) p.2)
  else none

/-- Modelled from the spec: split a raw observation string into its numeric
substring and its embedded unit token (spec 4.1 step 2), allowing internal
whitespace before the unit token; the token is empty when the value carries
no embedded unit. -/
def splitNumeric (s : String) : List Char × List Char :=
  let cs := trimChars s.toList
  match cs with
  | c :: rest =>
    if c == '+' || c == '-' then
      (c :: rest.takeWhile isNumChar, trimChars (rest.dropWhile isNumChar))
    else
      (cs.takeWhile isNumChar, trimChars (cs.dropWhile isNumChar))
  | [] => ([], [])

end EcowittHttp

namespace EcowittHttp

/-- Modelled from the spec: the static Unit Lookup Table mapping every
device-emitted unit abbreviation to the canonical unit name (spec 3); the
entries are exactly the `unit_lookup` constant asserted by the repository
test suite for the missing `EcowittHttpParser` class. -/
def unit_lookup : List (String × String) :=
  [("c", "degree_C"),
   ("f", "degree_F"),
   ("km", "km"),
   ("mi", "mile"),
   ("nmi", "nautical_mile"),
   ("hpa", "hPa"),
   ("kfc", "kfc"),
   ("klux", "klux"),
   ("kpa", "kPa"),
   ("inhg", "inHg"),
   ("mmhg", "mmHg"),
   ("mm", "mm"),
   ("in", "inch"),
   ("ft", "foot"),
   ("mm/hr", "mm_per_hour"),
   ("in/hr", "inch_per_hour"),
   ("km/h", "km_per_hour"),
   ("m/s", "meter_per_second"),
   ("mph", "mile_per_hour"),
   ("knots", "knot"),
   ("%", "percent"),
   ("w/m2", "watt_per_meter_squared")]

/-- Error taxonomy of the parsing core (spec 7): a missing required key, or
a value present but unparseable. -/
inductive ObsError where
  | missingField (key : String)
  | parseError (msg : String)
deriving DecidableEq, Repr

/-- Tagged Value, the fundamental parser output (spec 3): magnitude,
canonical unit, unit group. -/
structure ValueTuple where
  value : ℚ
  unit : String
  group : String
deriving DecidableEq, Repr

instance {ε α : Type} [DecidableEq ε] [DecidableEq α] : DecidableEq (Except ε α) := fun x y =>
  match x, y with
  | .ok a, .ok b => if h : a = b then .isTrue (by rw [h]) else .isFalse (by simp [h])
  | .error a, .error b => if h : a = b then .isTrue (by rw [h]) else .isFalse (by simp [h])
  | .ok _, .error _ => .isFalse (by simp)
  | .error _, .ok _ => .isFalse (by simp)

/-- True exactly on the parse-error kind of the error taxonomy. -/
def isParseError : Except ObsError α → Bool
  | .error (.parseError _) => true
  | _ => false

/-- Unit field of a successful parse, if any. -/
def resUnit : Except ObsError ValueTuple → Option String
  | .ok v => some v.unit
  | .error _ => none

/-- Modelled from the spec: unit resolution of `parse_obs_value`
(spec 4.1 steps 2, 3, 4, 6): an embedded unit token (matched
case-insensitively against the unit lookup table) takes priority over an
explicit sibling unit key, which takes priority over the device-units
default for the observation unit group; an unresolved token and a missing
or incomplete device-units configuration are parse errors. -/
def resolveUnit (token : List Char) (jsonObject : List (String × String))
    (unitGroup : String) (deviceUnits : Option (List (String × String))) :
    Except String String :=
  if token.isEmpty then
    match jsonObject.lookup "unit" with
    | some us =>
      match unit_lookup.lookup (lowerStr us.toList) with
      | some u => .ok u
      | none => .error ("unknown unit " ++ us)
    | none =>
      match deviceUnits with
      | none => .error "no device units supplied"
      | some du =>
        match du.lookup unitGroup with
        | some u => .ok u
        | none => .error ("no device unit for " ++ unitGroup)
  else
    match unit_lookup.lookup (lowerStr token) with
    | some u => .ok u
    | none => .error ("unknown unit " ++ String.mk token)

/-- Modelled from the spec: `parse_obs_value(key, json_object, unit_group,
device_units)` (spec 4.1), the driver function absent from src. Fails with
the missing-field error kind when the key is absent; splits the raw string
into numeric substring and embedded unit token; resolves the unit with the
embedded-token/sibling-key/device-default priority; extracts the numeric
magnitude; percent-valued observations force the humidity unit group. -/
def parse_obs_value (key : String) (jsonObject : List (String × String))
    (unitGroup : String) (deviceUnits : Option (List (String × String))) :
    Except ObsError ValueTuple :=
  match jsonObject.lookup key with
  | none => .error (.missingField key)
  | some raw =>
    let split := splitNumeric raw
    match resolveUnit split.2 jsonObject unitGroup deviceUnits with
    | .error m => .error (.parseError m)
    | .ok u =>
      match parseNumeric split.1 with
      | none => .error (.parseError ("unable to parse value " ++ raw))
      | some q =>
        .ok ⟨q, u, if u == "percent" then "group_humidity" else unitGroup⟩

/-- Metric device-units profile used by the test suite. -/
def device_units_metric : List (String × String) :=
  [("group_temperature", "degree_C"),
   ("group_pressure", "hPa"),
   ("group_speed", "km_per_hour"),
   ("group_rain", "cm"),
   ("group_illuminance", "lux"),
   ("group_direction", "degree_compass")]

/-- Metric-wx device-units profile used by the test suite. -/
def device_units_metric_wx : List (String × String) :=
  [("group_temperature", "degree_C"),
   ("group_pressure", "hPa"),
   ("group_speed", "meter_per_second"),
   ("group_rain", "mm"),
   ("group_illuminance", "lux"),
   ("group_direction", "degree_compass")]

/-- US-customary device-units profile used by the test suite. -/
def device_units_us : List (String × String) :=
  [("group_temperature", "degree_F"),
   ("group_pressure", "inHg"),
   ("group_speed", "mile_per_hour"),
   ("group_rain", "inch"),
   ("group_illuminance", "lux"),
   ("group_direction", "degree_compass")]

end EcowittHttp

namespace EcowittHttp

/-- Python-style scalar values appearing in decoded JSON responses. -/
inductive PyVal where
  | str (s : String)
  | int (n : Int)
  | float (q : ℚ)
  | bool (b : Bool)
  | none
deriving DecidableEq, Repr

/-- Decoded JSON endpoint response: a mapping, or some non-mapping scalar. -/
inductive Response where
  | dict (entries : List (String × PyVal))
  | scalar (v : PyVal)

/-- Python str() stringification of a scalar value. -/
def pyStr : PyVal → String
  | .str s => s
  | .int n => toString n
  | .float q => toString q
  | .bool b => if b then "True" else "False"
  | .none => "None"

/-- Python int() applied to a string: optional sign followed by digits,
ignoring surrounding whitespace, or failure. -/
def parseIntStr (s : String) : Option Int :=
  match trimChars s.toList with
  | '-' :: rest => (parseNatDigits rest).map (fun n => -(n : Int))
  | '+' :: rest => (parseNatDigits rest).map (fun n => (n : Int))
  | cs => (parseNatDigits cs).map (fun n => (n : Int))

/-- Truncation of a rational toward zero, as Python int() on a float. -/
def ratTrunc (q : ℚ) : Int := q.num.tdiv (q.den : Int)

/-- Python int() coercion of a scalar value, or failure. -/
def toIntPy : PyVal → Option Int
  | .str s => parseIntStr s
  | .int n => some n
  | .float q => some (ratTrunc q)
  | .bool b => some (if b then 1 else 0)
  | .none => Option.none

/-- Render an optional integer as a value-or-null field. -/
def optIntToPy : Option Int → PyVal
  | some n => .int n
  | Option.none => .none

/-- Characters after the last underscore of a character list. -/
def lastSeg (cs : List Char) : List Char :=
  (cs.reverse.takeWhile (fun c => c != '_')).reverse

/-- True when an underscore occurs in the string. -/
def hasUnderscore (s : String) : Bool := s.toList.any (fun c => c == '_')

/-- Modelled from the spec: the firmware-version value derived from a
version field: when the field is a string containing an underscore, the
substring after the last underscore; otherwise null. -/
def fwOf : PyVal → PyVal
  | .str s =>
    if hasUnderscore s then .str (String.mk (lastSeg s.toList)) else .none
  | _ => .none

/-- Modelled from the spec: per-field transform of `parse_get_version`
(spec 4.1): the version field is stringified and its derived
`firmware_version` field is emitted next to it. -/
def versionTransform (v : PyVal) : List (String × PyVal) :=
  [("version", .str (pyStr v)), ("firmware_version", fwOf v)]

/-- Per-entry output of `parse_get_version`: the version entry expands to
the stringified version plus the derived firmware version, the newVersion
entry is coerced to int or nulled, every other entry passes through. -/
def gvEntry (p : String × PyVal) : List (String × PyVal) :=
  if p.1 == "version" then versionTransform p.2
  else if p.1 == "newVersion" then [("newVersion", optIntToPy (toIntPy p.2))]
  else [p]

/-- Modelled from the spec: `parse_get_version(response)` (spec 4.1), the
driver function absent from src: non-mapping input is a hard parse error;
the version field is split on its last underscore into `firmware_version`;
`newVersion` is coerced to int if possible, else null; all other fields
pass through unchanged; output keys exist only for present input keys. -/
def parse_get_version : Response → Except ObsError (List (String × PyVal))
  | .scalar _ => .error (.parseError "get_version response is not a mapping")
  | .dict entries => .ok (listFlatMap gvEntry entries)

/-- Modelled from the spec: boolean coercion of the Customized field of
`parse_get_ws_settings` (spec 4.1): the disable string maps to False, the
enable string to True, anything else (numeric-like in particular) to null. -/
def customizedTransform : PyVal → PyVal
  | .str s => if s == "disable" then .bool false
              else if s == "enable" then .bool true
              else .none
  | _ => .none

/-- Modelled from the spec: string passthrough of `parse_get_ws_settings`
(spec 4.1): protocol and platform fields pass through verbatim when they
are strings, else they are nulled. -/
def strPassthrough : PyVal → PyVal
  | .str s => .str s
  | _ => .none

/-- Settings fields coerced to integers (poll interval, ports, upload
intervals). -/
def wsIntFields : List String :=
  ["ost_interval", "ecowitt_port", "ecowitt_upload", "usr_wu_port", "usr_wu_upload"]

/-- Settings fields passed through only when they are strings. -/
def wsStrFields : List String := ["Protocol", "platform"]

/-- Modelled from the spec: the field-by-field transform table of
`parse_get_ws_settings` (spec 4.1): numeric coercions each independently
default to null on failure, Customized gets the boolean coercion, protocol
and platform fields pass through only as strings, and remaining fields pass
through verbatim. -/
def wsFieldTransform (k : String) (v : PyVal) : PyVal :=
  if wsIntFields.contains k then optIntToPy (toIntPy v)
  else if k == "Customized" then customizedTransform v
  else if wsStrFields.contains k then strPassthrough v
  else v

/-- Modelled from the spec: `parse_get_ws_settings(response)` (spec 4.1),
the driver function absent from src: non-mapping input is a hard parse
error; otherwise each present input key yields exactly one output key with
the per-field transform applied, and absent keys are never materialized. -/
def parse_get_ws_settings : Response → Except ObsError (List (String × PyVal))
  | .scalar _ => .error (.parseError "get_ws_settings response is not a mapping")
  | .dict entries => .ok (entries.map (fun p => (p.1, wsFieldTransform p.1 p.2)))

/-- Field lookup in an endpoint-parse result; null when the parse failed or
the key is absent. -/
def exLookup (r : Except ObsError (List (String × PyVal))) (k : String) : Option PyVal :=
  match r with
  | .ok l => l.lookup k
  | .error _ => Option.none

end EcowittHttp

namespace EcowittHttp

/-- Sensor Record (spec 3): raw per-sensor data from one sensor-table
snapshot; enabled and connected are derived, not stored. -/
structure SensorRecord where
  address : Nat
  id : String
  battery : Option Int
  signal : Nat
deriving DecidableEq, Repr

/-- Entry of the sensor table for one sensor model: either a single sensor
or a mapping of channel name to sensor. -/
inductive SensorEntry where
  | single (r : SensorRecord)
  | channels (chs : List (String × SensorRecord))
deriving DecidableEq, Repr

/-- Sensor-table snapshot: mapping of model name to its entry. -/
def SensorTable := List (String × SensorEntry)

/-- Modelled from the spec: the sensor ids marking a sensor slot that is
not registered (disabled or still learning); the constant set holds exactly
the lowercase strings asserted by the test suite. -/
def not_registered : List String := ["fffffffe", "ffffffff"]

/-- Modelled from the spec: the registration-in-progress sentinel id of a
slot that is learning. -/
def learning_sentinel : String := "ffffffff"

/-- Composite records of one model entry: model name plus channel suffix
for channelised sensors. -/
def flattenEntry (model : String) : SensorEntry → List (String × SensorRecord)
  | .single r => [(model, r)]
  | .channels chs => chs.map (fun p => (model ++ "_" ++ p.1, p.2))

/-- Composite-id/record pairs of a whole sensor-table snapshot. -/
def flattenTable (t : SensorTable) : List (String × SensorRecord) :=
  listFlatMap (fun p => flattenEntry p.1 p.2) t

/-- Modelled from the spec: a sensor is enabled exactly when its raw id,
compared case-insensitively, is not a not-registered sentinel. -/
def isEnabledRec (r : SensorRecord) : Bool :=
  !(not_registered.contains (lowerStr r.id.toList))

/-- Modelled from the spec: a sensor is learning exactly when it reports
the registration-in-progress sentinel id, compared case-insensitively. -/
def isLearningRec (r : SensorRecord) : Bool :=
  lowerStr r.id.toList == learning_sentinel

/-- Modelled from the spec: a sensor is connected exactly when it is
enabled and its signal level is nonzero. -/
def isConnectedRec (r : SensorRecord) : Bool :=
  isEnabledRec r && r.signal != 0

/-- Aggregate view: every composite sensor id present in the snapshot. -/
def allSensors (t : SensorTable) : List String :=
  (flattenTable t).map Prod.fst

/-- Aggregate view: composite ids of the enabled sensors. -/
def enabledSensors (t : SensorTable) : List String :=
  ((flattenTable t).filter (fun p => isEnabledRec p.2)).map Prod.fst

/-- Aggregate view: composite ids of the disabled sensors. -/
def disabledSensors (t : SensorTable) : List String :=
  ((flattenTable t).filter (fun p => !isEnabledRec p.2)).map Prod.fst

/-- Aggregate view: composite ids of the sensors still learning. -/
def learningSensors (t : SensorTable) : List String :=
  ((flattenTable t).filter (fun p => isLearningRec p.2)).map Prod.fst

/-- Aggregate view: composite ids of the connected sensors. -/
def connectedSensors (t : SensorTable) : List String :=
  ((flattenTable t).filter (fun p => isConnectedRec p.2)).map Prod.fst

/-- Modelled from the spec: the Sensor Registry's static address to
composite-id table (address domain 0 to 69, some addresses reserved); the
entries are exactly the `sensor_address` constant asserted by the test
suite. Addresses are integers so that lookups on any integer are
expressible. -/
def sensor_address : List (Int × String) :=
  [(0, "ws69"), (1, "wh68"), (2, "ws80"), (3, "wh40"), (4, "wh25"),
   (5, "wh26"),
   (6, "wn31_ch1"), (7, "wn31_ch2"), (8, "wn31_ch3"), (9, "wn31_ch4"),
   (10, "wn31_ch5"), (11, "wn31_ch6"), (12, "wn31_ch7"), (13, "wn31_ch8"),
   (14, "wh51_ch1"), (15, "wh51_ch2"), (16, "wh51_ch3"), (17, "wh51_ch4"),
   (18, "wh51_ch5"), (19, "wh51_ch6"), (20, "wh51_ch7"), (21, "wh51_ch8"),
   (22, "wh41_ch1"), (23, "wh41_ch2"), (24, "wh41_ch3"), (25, "wh41_ch4"),
   (26, "wh57"),
   (27, "wh55_ch1"), (28, "wh55_ch2"), (29, "wh55_ch3"), (30, "wh55_ch4"),
   (31, "wn34_ch1"), (32, "wn34_ch2"), (33, "wn34_ch3"), (34, "wn34_ch4"),
   (35, "wn34_ch5"), (36, "wn34_ch6"), (37, "wn34_ch7"), (38, "wn34_ch8"),
   (39, "wh45"),
   (40, "wn35_ch1"), (41, "wn35_ch2"), (42, "wn35_ch3"), (43, "wn35_ch4"),
   (44, "wn35_ch5"), (45, "wn35_ch6"), (46, "wn35_ch7"), (47, "wn35_ch8"),
   (48, "ws90"), (49, "ws85"),
   (58, "wh51_ch9"), (59, "wh51_ch10"), (60, "wh51_ch11"), (61, "wh51_ch12"),
   (62, "wh51_ch13"), (63, "wh51_ch14"), (64, "wh51_ch15"), (65, "wh51_ch16"),
   (66, "wh54_ch1"), (67, "wh54_ch2"), (68, "wh54_ch3"), (69, "wh54_ch4")]

/-- Sensor-table snapshot used by the test suite for the aggregate views. -/
def testSensorTable : SensorTable :=
  [("wh45", .single ⟨39, "FFFFFFFF", Option.none, 0⟩),
   ("wh41", .channels
     [("ch1", ⟨22, "C497", some 2, 4⟩),
      ("ch2", ⟨23, "FFFFFFFE", Option.none, 0⟩)])]

end EcowittHttp

namespace EcowittHttp

/-- True exactly when the value is a string containing an underscore, the
condition under which the version field splits. -/
def strUnderscore : PyVal → Bool
  | .str s => hasUnderscore s
  | _ => false

/-- Numeric-literal shape: an optional sign followed by digit or dot
characters only. -/
def isNumLit (cs : List Char) : Bool :=
  match cs with
  | [] => false
  | c :: rest =>
    if c == '+' || c == '-' then rest.all isNumChar
    else (c :: rest).all isNumChar

/-- Token shape for the round-trip statement: nonempty, with no leading or
trailing space. -/
def cleanToken (cs : List Char) : Bool :=
  !cs.isEmpty && !(cs.head? == some ' ') && !(cs.reverse.head? == some ' ')

/-- Two sensor records that differ at most in the letter case of their raw
ids. -/
def recCaseEquiv (r r2 : SensorRecord) : Bool :=
  r.address == r2.address &&
  lowerStr r.id.toList == lowerStr r2.id.toList &&
  r.battery == r2.battery &&
  r.signal == r2.signal

/-- Pointwise case-equivalence of keyed record lists. -/
def pairsCaseEquiv : List (String × SensorRecord) →
    List (String × SensorRecord) → Bool
  | [], [] => true
  | p :: xs, p2 :: ys =>
    p.1 == p2.1 && recCaseEquiv p.2 p2.2 && pairsCaseEquiv xs ys
  | _, _ => false

/-- Case-equivalence of sensor-table entries. -/
def entryCaseEquiv : SensorEntry → SensorEntry → Bool
  | .single r, .single r2 => recCaseEquiv r r2
  | .channels xs, .channels ys => pairsCaseEquiv xs ys
  | _, _ => false

/-- Case-equivalence of whole sensor-table snapshots. -/
def tableCaseEquiv : SensorTable → SensorTable → Bool
  | [], [] => true
  | p :: xs, p2 :: ys =>
    p.1 == p2.1 && entryCaseEquiv p.2 p2.2 && tableCaseEquiv xs ys
  | _, _ => false

end EcowittHttp






namespace EcowittHttp

theorem takeWhile_append_all {α : Type} {p : α → Bool} (l : List α) (x : α)
    (r : List α) (hl : l.all p = true) (hx : p x = false) :
    (l ++ x :: r).takeWhile p = l := by
  induction l with
  | nil => simp [List.takeWhile_cons, hx]
  | cons c cs ih =>
    simp only [List.all_cons, Bool.and_eq_true] at hl
    simp [List.takeWhile_cons, hl.1, ih hl.2]

theorem dropWhile_append_all {α : Type} {p : α → Bool} (l : List α) (x : α)
    (r : List α) (hl : l.all p = true) (hx : p x = false) :
    (l ++ x :: r).dropWhile p = x :: r := by
  induction l with
  | nil => simp [List.dropWhile_cons, hx]
  | cons c cs ih =>
    simp only [List.all_cons, Bool.and_eq_true] at hl
    simp [List.dropWhile_cons, hl.1, ih hl.2]

theorem dropWhile_of_head {α : Type} {p : α → Bool} (l : List α)
    (h : ∀ c, l.head? = some c → p c = false) : l.dropWhile p = l := by
  cases l with
  | nil => rfl
  | cons c cs => simp [List.dropWhile_cons, h c rfl]

theorem mem_trimChars {c : Char} {cs : List Char} (h : c ∈ trimChars cs) :
    c ∈ cs := by
  unfold trimChars at h
  rw [List.mem_reverse] at h
  have h2 := List.Sublist.mem h (List.dropWhile_sublist isSpace)
  rw [List.mem_reverse] at h2
  exact List.Sublist.mem h2 (List.dropWhile_sublist isSpace)

theorem mem_splitNumeric_fst {s : String} {c : Char}
    (h : c ∈ (splitNumeric s).1) : c ∈ s.toList := by
  unfold splitNumeric at h
  cases htrim : trimChars s.toList with
  | nil => rw [htrim] at h; simp at h
  | cons c0 rest =>
    rw [htrim] at h
    by_cases hsign : (c0 == '+' || c0 == '-') = true
    · simp only [hsign, if_pos] at h
      have hsub : (c0 :: rest.takeWhile isNumChar).Sublist (c0 :: rest) :=
        List.Sublist.cons₂ c0 (List.takeWhile_sublist isNumChar)
      exact mem_trimChars (htrim ▸ List.Sublist.mem h hsub)
    · simp only [hsign, if_neg, Bool.false_eq_true, not_false_iff] at h
      exact mem_trimChars (htrim ▸ List.Sublist.mem h (List.takeWhile_sublist isNumChar))

theorem parseNumeric_none_of_noDigit {s : String}
    (h : s.toList.any Char.isDigit = false) :
    parseNumeric (splitNumeric s).1 = none := by
  have hany : (splitNumeric s).1.any Char.isDigit = false := by
    by_contra hcon
    rw [Bool.not_eq_false, List.any_eq_true] at hcon
    obtain ⟨c, hc, hdig⟩ := hcon
    have : s.toList.any Char.isDigit = true :=
      List.any_eq_true.mpr ⟨c, mem_splitNumeric_fst hc, hdig⟩
    rw [h] at this
    exact Bool.false_ne_true this
  unfold parseNumeric
  rw [hany]
  simp

theorem parse_obs_value_ok {key : String} {jo : List (String × String)}
    {g : String} {du : Option (List (String × String))} {s : String}
    {u : String} {q : ℚ}
    (h1 : jo.lookup key = some s)
    (h2 : resolveUnit (splitNumeric s).2 jo g du = .ok u)
    (h3 : parseNumeric (splitNumeric s).1 = some q) :
    parse_obs_value key jo g du =
      .ok ⟨q, u, if u == "percent" then "group_humidity" else g⟩ := by
  unfold parse_obs_value
  rw [h1]
  simp only [h2, h3]

theorem parse_obs_value_numeric_fail {key : String}
    {jo : List (String × String)} {g : String}
    {du : Option (List (String × String))} {s : String}
    (h1 : jo.lookup key = some s)
    (h3 : parseNumeric (splitNumeric s).1 = none) :
    isParseError (parse_obs_value key jo g du) = true := by
  unfold parse_obs_value
  rw [h1]
  cases h2 : resolveUnit (splitNumeric s).2 jo g du with
  | error m => simp [h2, isParseError]
  | ok u => simp [h2, h3, isParseError]

theorem parse_obs_value_unit_fail {key : String}
    {jo : List (String × String)} {g : String}
    {du : Option (List (String × String))} {s : String} {m : String}
    (h1 : jo.lookup key = some s)
    (h2 : resolveUnit (splitNumeric s).2 jo g du = .error m) :
    isParseError (parse_obs_value key jo g du) = true := by
  unfold parse_obs_value
  rw [h1]
  simp [h2, isParseError]

end EcowittHttp

namespace EcowittHttp

theorem resolveUnit_embedded {c : Char} {cs : List Char}
    {jo : List (String × String)} {g : String}
    {du : Option (List (String × String))} {u : String}
    (h : unit_lookup.lookup (lowerStr (c :: cs)) = some u) :
    resolveUnit (c :: cs) jo g du = .ok u := by
  simp [resolveUnit, h]

theorem resolveUnit_embedded_fail {c : Char} {cs : List Char}
    {jo : List (String × String)} {g : String}
    {du : Option (List (String × String))}
    (h : unit_lookup.lookup (lowerStr (c :: cs)) = none) :
    resolveUnit (c :: cs) jo g du = .error ("unknown unit " ++ String.mk (c :: cs)) := by
  simp [resolveUnit, h]

theorem resolveUnit_sibling {jo : List (String × String)} {g : String}
    {du : Option (List (String × String))} {us u : String}
    (h1 : jo.lookup "unit" = some us)
    (h2 : unit_lookup.lookup (lowerStr us.toList) = some u) :
    resolveUnit [] jo g du = .ok u := by
  simp only [String.toList] at h2
  simp [resolveUnit, h1, h2]

theorem resolveUnit_sibling_fail {jo : List (String × String)} {g : String}
    {du : Option (List (String × String))} {us : String}
    (h1 : jo.lookup "unit" = some us)
    (h2 : unit_lookup.lookup (lowerStr us.toList) = none) :
    resolveUnit [] jo g du = .error ("unknown unit " ++ us) := by
  simp only [String.toList] at h2
  simp [resolveUnit, h1, h2]

theorem resolveUnit_device {jo : List (String × String)} {g : String}
    {du : List (String × String)} {u : String}
    (h1 : jo.lookup "unit" = none)
    (h2 : du.lookup g = some u) :
    resolveUnit [] jo g (some du) = .ok u := by
  simp [resolveUnit, h1, h2]

theorem resolveUnit_device_none {jo : List (String × String)} {g : String}
    (h1 : jo.lookup "unit" = none) :
    resolveUnit [] jo g none = .error "no device units supplied" := by
  simp [resolveUnit, h1]

theorem resolveUnit_device_missing {jo : List (String × String)} {g : String}
    {du : List (String × String)}
    (h1 : jo.lookup "unit" = none)
    (h2 : du.lookup g = none) :
    resolveUnit [] jo g (some du) = .error ("no device unit for " ++ g) := by
  simp [resolveUnit, h1, h2]

end EcowittHttp

namespace EcowittHttp

/-- C1: when the raw value embeds no unit token and the payload has no
sibling unit key, the parsed unit is the device-units entry for the unit
group, for every device-units mapping (hence for all three device-unit
profiles); an embedded unit token takes priority over the sibling unit key
(the result ignores the sibling entirely), and the sibling unit key takes
priority over the device-units default (the result is the same for every
device-units argument). -/
theorem c1_unit_priority :
    (∀ (key : String) (jo : List (String × String)) (g : String)
       (du : List (String × String)) (s : String) (ns : List Char)
       (q : ℚ) (u : String),
       jo.lookup key = some s →
       splitNumeric s = (ns, []) →
       parseNumeric ns = some q →
       jo.lookup "unit" = none →
       du.lookup g = some u →
       parse_obs_value key jo g (some du) =
         .ok ⟨q, u, if u == "percent" then "group_humidity" else g⟩) ∧
    (∀ (key : String) (jo : List (String × String)) (g : String)
       (du : Option (List (String × String))) (s : String) (ns : List Char)
       (c : Char) (cs : List Char) (q : ℚ) (u : String),
       jo.lookup key = some s →
       splitNumeric s = (ns, c :: cs) →
       unit_lookup.lookup (lowerStr (c :: cs)) = some u →
       parseNumeric ns = some q →
       parse_obs_value key jo g du =
         .ok ⟨q, u, if u == "percent" then "group_humidity" else g⟩) ∧
    (∀ (key : String) (jo : List (String × String)) (g : String)
       (du : Option (List (String × String))) (s : String) (ns : List Char)
       (us : String) (q : ℚ) (u : String),
       jo.lookup key = some s →
       splitNumeric s = (ns, []) →
       jo.lookup "unit" = some us →
       unit_lookup.lookup (lowerStr us.toList) = some u →
       parseNumeric ns = some q →
       parse_obs_value key jo g du =
         .ok ⟨q, u, if u == "percent" then "group_humidity" else g⟩) := by
  refine ⟨?_, ?_, ?_⟩
  · intro key jo g du s ns q u h1 h2 h3 h4 h5
    have hr : resolveUnit (splitNumeric s).2 jo g (some du) = .ok u := by
      rw [h2]; exact resolveUnit_device h4 h5
    have hn : parseNumeric (splitNumeric s).1 = some q := by rw [h2]; exact h3
    exact parse_obs_value_ok h1 hr hn
  · intro key jo g du s ns c cs q u h1 h2 h3 h4
    have hr : resolveUnit (splitNumeric s).2 jo g du = .ok u := by
      rw [h2]; exact resolveUnit_embedded h3
    have hn : parseNumeric (splitNumeric s).1 = some q := by rw [h2]; exact h4
    exact parse_obs_value_ok h1 hr hn
  · intro key jo g du s ns us q u h1 h2 h3 h4 h5
    have hr : resolveUnit (splitNumeric s).2 jo g du = .ok u := by
      rw [h2]; exact resolveUnit_sibling h3 h4
    have hn : parseNumeric (splitNumeric s).1 = some q := by rw [h2]; exact h5
    exact parse_obs_value_ok h1 hr hn

/-- Witness for C1 at the test suite's inputs: device-unit defaulting under
each of the three device-unit profiles, an embedded token overriding a
contradictory sibling unit key, and a sibling unit key applying for every
device-units argument including none. -/
theorem c1_witness :
    parse_obs_value "val" [("id", "0x03"), ("val", "26.5")]
      "group_temperature" (some device_units_metric) =
      .ok ⟨mkRat 53 2, "degree_C", "group_temperature"⟩ ∧
    parse_obs_value "val" [("id", "0x03"), ("val", "26.5")]
      "group_temperature" (some device_units_us) =
      .ok ⟨mkRat 53 2, "degree_F", "group_temperature"⟩ ∧
    parse_obs_value "val" [("id", "0x0B"), ("val", "4.20")]
      "group_speed" (some device_units_metric_wx) =
      .ok ⟨mkRat 21 5, "meter_per_second", "group_speed"⟩ ∧
    parse_obs_value "val" [("val", "4.20 km/h"), ("unit", "mph")]
      "group_speed" (some device_units_us) =
      .ok ⟨mkRat 21 5, "km_per_hour", "group_speed"⟩ ∧
    parse_obs_value "val" [("val", "26.5"), ("unit", "F")]
      "group_temperature" none =
      .ok ⟨mkRat 53 2, "degree_F", "group_temperature"⟩ :=
  ⟨c1_unit_priority.1 "val" [("id", "0x03"), ("val", "26.5")]
      "group_temperature" device_units_metric "26.5" "26.5".toList
      (mkRat 53 2) "degree_C" (by decide) (by decide) (by decide) (by decide)
      (by decide),
   c1_unit_priority.1 "val" [("id", "0x03"), ("val", "26.5")]
      "group_temperature" device_units_us "26.5" "26.5".toList
      (mkRat 53 2) "degree_F" (by decide) (by decide) (by decide) (by decide)
      (by decide),
   c1_unit_priority.1 "val" [("id", "0x0B"), ("val", "4.20")]
      "group_speed" device_units_metric_wx "4.20" "4.20".toList
      (mkRat 21 5) "meter_per_second" (by decide) (by decide) (by decide)
      (by decide) (by decide),
   c1_unit_priority.2.1 "val" [("val", "4.20 km/h"), ("unit", "mph")]
      "group_speed" (some device_units_us) "4.20 km/h" "4.20".toList
      'k' "m/h".toList (mkRat 21 5) "km_per_hour" (by decide) (by decide)
      (by decide) (by decide),
   c1_unit_priority.2.2 "val" [("val", "26.5"), ("unit", "F")]
      "group_temperature" none "26.5" "26.5".toList "F"
      (mkRat 53 2) "degree_F" (by decide) (by decide) (by decide) (by decide)
      (by decide)⟩

end EcowittHttp

namespace EcowittHttp

/-- C2: `parse_obs_value` always fails with the parse-error kind when the
value at the key is present but unparseable: when the raw string contains
no digit at all (so no numeric substring exists), when an embedded unit
token is not in the unit lookup table, when an explicit sibling unit key
value is not in the unit lookup table, and when no embedded or explicit
unit is present while the device-units argument is absent or lacks the
unit-group entry. -/
theorem c2_parse_error_on_unparseable :
    (∀ (key : String) (jo : List (String × String)) (g : String)
       (du : Option (List (String × String))) (s : String),
       jo.lookup key = some s →
       s.toList.any Char.isDigit = false →
       isParseError (parse_obs_value key jo g du) = true) ∧
    (∀ (key : String) (jo : List (String × String)) (g : String)
       (du : Option (List (String × String))) (s : String) (ns : List Char)
       (c : Char) (cs : List Char),
       jo.lookup key = some s →
       splitNumeric s = (ns, c :: cs) →
       unit_lookup.lookup (lowerStr (c :: cs)) = none →
       isParseError (parse_obs_value key jo g du) = true) ∧
    (∀ (key : String) (jo : List (String × String)) (g : String)
       (du : Option (List (String × String))) (s : String) (ns : List Char)
       (us : String),
       jo.lookup key = some s →
       splitNumeric s = (ns, []) →
       jo.lookup "unit" = some us →
       unit_lookup.lookup (lowerStr us.toList) = none →
       isParseError (parse_obs_value key jo g du) = true) ∧
    (∀ (key : String) (jo : List (String × String)) (g : String)
       (s : String) (ns : List Char),
       jo.lookup key = some s →
       splitNumeric s = (ns, []) →
       jo.lookup "unit" = none →
       isParseError (parse_obs_value key jo g none) = true) ∧
    (∀ (key : String) (jo : List (String × String)) (g : String)
       (du : List (String × String)) (s : String) (ns : List Char),
       jo.lookup key = some s →
       splitNumeric s = (ns, []) →
       jo.lookup "unit" = none →
       du.lookup g = none →
       isParseError (parse_obs_value key jo g (some du)) = true) := by
  refine ⟨?_, ?_, ?_, ?_, ?_⟩
  · intro key jo g du s h1 h2
    exact parse_obs_value_numeric_fail h1 (parseNumeric_none_of_noDigit h2)
  · intro key jo g du s ns c cs h1 h2 h3
    have hr : resolveUnit (splitNumeric s).2 jo g du =
        .error ("unknown unit " ++ String.mk (c :: cs)) := by
      rw [h2]; exact resolveUnit_embedded_fail h3
    exact parse_obs_value_unit_fail h1 hr
  · intro key jo g du s ns us h1 h2 h3 h4
    have hr : resolveUnit (splitNumeric s).2 jo g du =
        .error ("unknown unit " ++ us) := by
      rw [h2]; exact resolveUnit_sibling_fail h3 h4
    exact parse_obs_value_unit_fail h1 hr
  · intro key jo g s ns h1 h2 h3
    have hr : resolveUnit (splitNumeric s).2 jo g none =
        .error "no device units supplied" := by
      rw [h2]; exact resolveUnit_device_none h3
    exact parse_obs_value_unit_fail h1 hr
  · intro key jo g du s ns h1 h2 h3 h4
    have hr : resolveUnit (splitNumeric s).2 jo g (some du) =
        .error ("no device unit for " ++ g) := by
      rw [h2]; exact resolveUnit_device_missing h3 h4
    exact parse_obs_value_unit_fail h1 hr

/-- Witness for C2 at the test suite's malformed inputs: a value with no
numeric substring in two forms, an unknown embedded unit token, an unknown
sibling unit key value, a missing device-units argument, and a device-units
mapping lacking the required unit group. -/
theorem c2_witness :
    isParseError (parse_obs_value "val" [("id", "0x0B"), ("val", "test")]
      "group_speed" (some device_units_metric)) = true ∧
    isParseError (parse_obs_value "val" [("id", "0x0B"), ("val", ",.,")]
      "group_speed" (some device_units_metric)) = true ∧
    isParseError (parse_obs_value "val" [("id", "0x0B"), ("val", "4.2 dogs")]
      "group_speed" (some device_units_metric)) = true ∧
    isParseError (parse_obs_value "val"
      [("id", "0x03"), ("val", "26.5"), ("unit", "test")]
      "group_temperature" (some device_units_metric)) = true ∧
    isParseError (parse_obs_value "val" [("id", "0x03"), ("val", "26.5")]
      "group_temperature" none) = true ∧
    isParseError (parse_obs_value "val" [("id", "0x03"), ("val", "26.5")]
      "group_temperature" (some [("group_pressure", "hPa")])) = true :=
  ⟨c2_parse_error_on_unparseable.1 "val" [("id", "0x0B"), ("val", "test")]
      "group_speed" (some device_units_metric) "test" (by decide) (by decide),
   c2_parse_error_on_unparseable.1 "val" [("id", "0x0B"), ("val", ",.,")]
      "group_speed" (some device_units_metric) ",.," (by decide) (by decide),
   c2_parse_error_on_unparseable.2.1 "val" [("id", "0x0B"), ("val", "4.2 dogs")]
      "group_speed" (some device_units_metric) "4.2 dogs" "4.2".toList
      'd' "ogs".toList (by decide) (by decide) (by decide),
   c2_parse_error_on_unparseable.2.2.1 "val"
      [("id", "0x03"), ("val", "26.5"), ("unit", "test")]
      "group_temperature" (some device_units_metric) "26.5" "26.5".toList
      "test" (by decide) (by decide) (by decide) (by decide),
   c2_parse_error_on_unparseable.2.2.2.1 "val" [("id", "0x03"), ("val", "26.5")]
      "group_temperature" "26.5" "26.5".toList (by decide) (by decide)
      (by decide),
   c2_parse_error_on_unparseable.2.2.2.2 "val" [("id", "0x03"), ("val", "26.5")]
      "group_temperature" [("group_pressure", "hPa")] "26.5" "26.5".toList
      (by decide) (by decide) (by decide) (by decide)⟩

/-- C3: when the key is absent from the payload, `parse_obs_value` fails
with the missing-field error kind carrying that key, for every unit group
and every device-units argument. -/
theorem c3_missing_field (key : String) (jo : List (String × String))
    (g : String) (du : Option (List (String × String)))
    (h : jo.lookup key = none) :
    parse_obs_value key jo g du = .error (.missingField key) := by
  unfold parse_obs_value
  rw [h]

/-- Witness for C3 at the test suite's input: a payload without the value
key, under both a present and an absent device-units argument. -/
theorem c3_witness :
    parse_obs_value "val" [("id", "0x0B")] "group_speed"
      (some device_units_metric) = .error (.missingField "val") ∧
    parse_obs_value "val" [("id", "0x0B")] "group_direction" none =
      .error (.missingField "val") :=
  ⟨c3_missing_field "val" [("id", "0x0B")] "group_speed"
      (some device_units_metric) (by decide),
   c3_missing_field "val" [("id", "0x0B")] "group_direction" none (by decide)⟩

end EcowittHttp

namespace EcowittHttp

theorem numLit_head_not_space {c : Char} {rest : List Char}
    (h : isNumLit (c :: rest) = true) : isSpace c = false := by
  simp only [isNumLit] at h
  by_cases hs : (c == '+' || c == '-') = true
  · have hor : c = '+' ∨ c = '-' := by
      simp only [Bool.or_eq_true, beq_iff_eq] at hs
      exact hs
    rcases hor with h1 | h1
    · rw [h1]; decide
    · rw [h1]; decide
  · rw [if_neg hs, List.all_cons, Bool.and_eq_true] at h
    cases hsp : c == ' ' with
    | true => rw [eq_of_beq hsp] at h; exact absurd h.1 (by decide)
    | false => exact hsp

theorem trim_space_cons {tok : List Char} (htok : cleanToken tok = true) :
    trimChars (' ' :: tok) = tok := by
  unfold cleanToken at htok
  simp only [Bool.and_eq_true, Bool.not_eq_true'] at htok
  obtain ⟨⟨hne, hhead⟩, hlast⟩ := htok
  unfold trimChars
  rw [List.dropWhile_cons]
  have h1 : isSpace ' ' = true := by decide
  rw [if_pos h1]
  have h2 : tok.dropWhile isSpace = tok := by
    refine dropWhile_of_head tok ?_
    intro c hc
    rw [hc] at hhead
    cases hcs : c == ' ' with
    | true => rw [eq_of_beq hcs] at hhead; simp at hhead
    | false => exact hcs
  rw [h2]
  have h3 : tok.reverse.dropWhile isSpace = tok.reverse := by
    refine dropWhile_of_head tok.reverse ?_
    intro c hc
    rw [hc] at hlast
    cases hcs : c == ' ' with
    | true => rw [eq_of_beq hcs] at hlast; simp at hlast
    | false => exact hcs
  rw [h3, List.reverse_reverse]

theorem trim_format {num tok : List Char} (hnum : isNumLit num = true)
    (htok : cleanToken tok = true) :
    trimChars (num ++ ' ' :: tok) = num ++ ' ' :: tok := by
  cases num with
  | nil => exact absurd hnum (by simp [isNumLit])
  | cons n0 nt =>
    unfold cleanToken at htok
    simp only [Bool.and_eq_true, Bool.not_eq_true'] at htok
    obtain ⟨⟨hne, hhead⟩, hlast⟩ := htok
    unfold trimChars
    have h1 : (n0 :: nt ++ ' ' :: tok).dropWhile isSpace = n0 :: nt ++ ' ' :: tok := by
      refine dropWhile_of_head _ ?_
      intro c hc
      simp only [List.cons_append, List.head?_cons, Option.some.injEq] at hc
      rw [← hc]
      exact numLit_head_not_space hnum
    rw [h1]
    cases hR : tok.reverse with
    | nil =>
      rw [List.reverse_eq_nil_iff] at hR
      rw [hR] at hne
      exact absurd hne (by simp)
    | cons r0 rr =>
      have h2 : (n0 :: nt ++ ' ' :: tok).reverse.dropWhile isSpace =
          (n0 :: nt ++ ' ' :: tok).reverse := by
        refine dropWhile_of_head _ ?_
        intro c hc
        have hrev : (n0 :: nt ++ ' ' :: tok).reverse =
            r0 :: (rr ++ ' ' :: (n0 :: nt).reverse) := by
          rw [List.reverse_append, List.reverse_cons, hR]
          simp
        rw [hrev] at hc
        simp only [List.head?_cons, Option.some.injEq] at hc
        rw [hR] at hlast
        simp only [List.head?_cons] at hlast
        have hlast2 : (r0 == ' ') = false := hlast
        rw [hc] at hlast2
        exact hlast2
      rw [h2, List.reverse_reverse]

theorem splitNumeric_of_trim {s : String} {c : Char} {rest : List Char}
    (h : trimChars s.toList = c :: rest) :
    splitNumeric s =
      if c == '+' || c == '-' then
        (c :: rest.takeWhile isNumChar, trimChars (rest.dropWhile isNumChar))
      else
        ((c :: rest).takeWhile isNumChar,
         trimChars ((c :: rest).dropWhile isNumChar)) := by
  unfold splitNumeric
  rw [h]

theorem splitNumeric_format {num tok : List Char} (hnum : isNumLit num = true)
    (htok : cleanToken tok = true) :
    splitNumeric (String.mk (num ++ ' ' :: tok)) = (num, tok) := by
  cases num with
  | nil => exact absurd hnum (by simp [isNumLit])
  | cons n0 nt =>
    have htrim : trimChars (String.mk ((n0 :: nt) ++ ' ' :: tok)).toList =
        n0 :: (nt ++ ' ' :: tok) := by
      have h0 : trimChars ((n0 :: nt) ++ ' ' :: tok) = (n0 :: nt) ++ ' ' :: tok :=
        trim_format hnum htok
      rw [List.cons_append] at h0
      exact h0
    rw [splitNumeric_of_trim htrim]
    have hsp : isNumChar ' ' = false := by decide
    simp only [isNumLit] at hnum
    by_cases hs : (n0 == '+' || n0 == '-') = true
    · rw [if_pos hs]
      rw [if_pos hs] at hnum
      rw [takeWhile_append_all nt ' ' tok hnum hsp,
          dropWhile_append_all nt ' ' tok hnum hsp,
          trim_space_cons htok]
    · rw [if_neg hs]
      rw [if_neg hs] at hnum
      rw [(List.cons_append n0 nt (' ' :: tok)).symm] at *
      rw [takeWhile_append_all (n0 :: nt) ' ' tok hnum hsp,
          dropWhile_append_all (n0 :: nt) ' ' tok hnum hsp,
          trim_space_cons htok]

end EcowittHttp

namespace EcowittHttp

/-- C4: round-trip over the unit vocabulary: formatting a numeric literal
followed by a space and a unit token whose case-insensitive lower-casing is
a key of the canonical unit lookup table, then parsing the formatted string
with `parse_obs_value`, yields a Tagged Value whose magnitude is exactly
the numeric literal's value and whose unit is the table's canonical unit
for that token. -/
theorem c4_round_trip (key : String) (jo : List (String × String))
    (g : String) (du : Option (List (String × String)))
    (num tok : List Char) (q : ℚ) (u : String)
    (h1 : jo.lookup key = some (String.mk (num ++ ' ' :: tok)))
    (h2 : isNumLit num = true)
    (h3 : parseNumeric num = some q)
    (h4 : cleanToken tok = true)
    (h5 : unit_lookup.lookup (lowerStr tok) = some u) :
    parse_obs_value key jo g du =
      .ok ⟨q, u, if u == "percent" then "group_humidity" else g⟩ := by
  have hsplit : splitNumeric (String.mk (num ++ ' ' :: tok)) = (num, tok) :=
    splitNumeric_format h2 h4
  cases htok : tok with
  | nil => rw [htok] at h4; exact absurd h4 (by simp [cleanToken])
  | cons t0 tt =>
    subst htok
    have hr : resolveUnit (splitNumeric (String.mk (num ++ ' ' :: t0 :: tt))).2
        jo g du = .ok u := by
      rw [hsplit]; exact resolveUnit_embedded h5
    have hn : parseNumeric (splitNumeric (String.mk (num ++ ' ' :: t0 :: tt))).1 =
        some q := by
      rw [hsplit]; exact h3
    exact parse_obs_value_ok h1 hr hn

/-- Witness for C4: the formatted strings built from value 4.20 with unit
tokens drawn from the table (a mixed-case wind-speed token and the
irradiance token containing a digit) parse back to the original magnitude
and the canonical units. -/
theorem c4_witness :
    parse_obs_value "val" [("val", "4.20 Km/H")] "group_speed" none =
      .ok ⟨mkRat 21 5, "km_per_hour", "group_speed"⟩ ∧
    parse_obs_value "val" [("val", "157.38 w/m2")] "group_illuminance" none =
      .ok ⟨mkRat 15738 100, "watt_per_meter_squared", "group_illuminance"⟩ :=
  ⟨c4_round_trip "val" [("val", "4.20 Km/H")] "group_speed" none
      "4.20".toList "Km/H".toList (mkRat 21 5) "km_per_hour"
      (by decide) (by decide) (by decide) (by decide) (by decide),
   c4_round_trip "val" [("val", "157.38 w/m2")] "group_illuminance" none
      "157.38".toList "w/m2".toList (mkRat 15738 100) "watt_per_meter_squared"
      (by decide) (by decide) (by decide) (by decide) (by decide)⟩

end EcowittHttp

namespace EcowittHttp

theorem lookup_append_of_none {α β : Type} [BEq α] {l1 l2 : List (α × β)}
    {a : α} (h : l1.lookup a = none) :
    (l1 ++ l2).lookup a = l2.lookup a := by
  induction l1 with
  | nil => rfl
  | cons p es ih =>
    obtain ⟨k, w⟩ := p
    rw [List.lookup_cons] at h
    rw [List.cons_append, List.lookup_cons]
    cases hk : a == k with
    | true => rw [hk] at h; simp at h
    | false => rw [hk] at h; exact ih h

theorem beq_flip_false {α : Type} [BEq α] [LawfulBEq α] {a b : α}
    (h : (a == b) = false) : (b == a) = false := by
  rw [beq_eq_false_iff_ne] at h ⊢
  exact fun he => h he.symm

theorem gv_entry_skip {a k : String} {w : PyVal}
    (hk : (a == k) = false)
    (h1 : (a == "firmware_version") = false) :
    (gvEntry (k, w)).lookup a = none := by
  unfold gvEntry
  by_cases hv : (k == "version") = true
  · rw [if_pos hv]
    unfold versionTransform
    have ha : (a == "version") = false := by rw [← eq_of_beq hv]; exact hk
    rw [List.lookup_cons, List.lookup_cons]
    simp only [ha, h1]
    rfl
  · rw [Bool.not_eq_true] at hv
    rw [if_neg (by rw [hv]; exact Bool.false_ne_true)]
    by_cases hn : (k == "newVersion") = true
    · rw [if_pos hn]
      have ha : (a == "newVersion") = false := by rw [← eq_of_beq hn]; exact hk
      rw [List.lookup_cons]
      simp only [ha]
      rfl
    · rw [Bool.not_eq_true] at hn
      rw [if_neg (by rw [hn]; exact Bool.false_ne_true)]
      rw [List.lookup_cons]
      simp only [hk]
      rfl

theorem gv_entry_skip_fw {k : String} {w : PyVal}
    (hfk : (("firmware_version" : String) == k) = false)
    (hvk : (("version" : String) == k) = false) :
    (gvEntry (k, w)).lookup "firmware_version" = none := by
  unfold gvEntry
  by_cases hv : (k == "version") = true
  · rw [eq_of_beq hv] at hvk
    exact absurd hvk (by decide)
  · rw [Bool.not_eq_true] at hv
    rw [if_neg (by rw [hv]; exact Bool.false_ne_true)]
    by_cases hn : (k == "newVersion") = true
    · rw [if_pos hn]
      rw [List.lookup_cons]
      simp only [show (("firmware_version" : String) == "newVersion") = false
        from by decide]
      rfl
    · rw [Bool.not_eq_true] at hn
      rw [if_neg (by rw [hn]; exact Bool.false_ne_true)]
      rw [List.lookup_cons]
      simp only [hfk]
      rfl

theorem gv_lookup_version (entries : List (String × PyVal)) (v : PyVal)
    (h : entries.lookup "version" = some v) :
    (listFlatMap gvEntry entries).lookup "version" = some (.str (pyStr v)) := by
  induction entries with
  | nil => simp [List.lookup] at h
  | cons p es ih =>
    obtain ⟨k, w⟩ := p
    rw [List.lookup_cons] at h
    show (gvEntry (k, w) ++ listFlatMap gvEntry es).lookup "version" = _
    cases hk : ("version" : String) == k with
    | true =>
      rw [hk] at h
      simp only at h
      injection h with hv
      have hkeq : k = "version" := (eq_of_beq hk).symm
      subst hkeq hv
      simp [gvEntry, versionTransform, List.lookup_cons]
    | false =>
      rw [hk] at h
      simp only at h
      rw [lookup_append_of_none (gv_entry_skip hk (by decide))]
      exact ih h

theorem gv_lookup_fw (entries : List (String × PyVal)) (v : PyVal)
    (hnf : entries.lookup "firmware_version" = none)
    (h : entries.lookup "version" = some v) :
    (listFlatMap gvEntry entries).lookup "firmware_version" = some (fwOf v) := by
  induction entries with
  | nil => simp [List.lookup] at h
  | cons p es ih =>
    obtain ⟨k, w⟩ := p
    rw [List.lookup_cons] at h hnf
    show (gvEntry (k, w) ++ listFlatMap gvEntry es).lookup "firmware_version" = _
    have hfk : (("firmware_version" : String) == k) = false := by
      cases hx : ("firmware_version" : String) == k with
      | true => rw [hx] at hnf; simp at hnf
      | false => rfl
    rw [hfk] at hnf
    simp only at hnf
    cases hk : ("version" : String) == k with
    | true =>
      rw [hk] at h
      simp only at h
      injection h with hv
      have hkeq : k = "version" := (eq_of_beq hk).symm
      subst hkeq hv
      simp [gvEntry, versionTransform, List.lookup_cons]
    | false =>
      rw [hk] at h
      simp only at h
      rw [lookup_append_of_none (gv_entry_skip_fw hfk hk)]
      exact ih hnf h

theorem gv_lookup_nv (entries : List (String × PyVal)) (v : PyVal)
    (h : entries.lookup "newVersion" = some v) :
    (listFlatMap gvEntry entries).lookup "newVersion" =
      some (optIntToPy (toIntPy v)) := by
  induction entries with
  | nil => simp [List.lookup] at h
  | cons p es ih =>
    obtain ⟨k, w⟩ := p
    rw [List.lookup_cons] at h
    show (gvEntry (k, w) ++ listFlatMap gvEntry es).lookup "newVersion" = _
    cases hk : ("newVersion" : String) == k with
    | true =>
      rw [hk] at h
      simp only at h
      injection h with hv
      have hkeq : k = "newVersion" := (eq_of_beq hk).symm
      subst hkeq hv
      simp [gvEntry, List.lookup_cons]
    | false =>
      rw [hk] at h
      simp only at h
      rw [lookup_append_of_none (gv_entry_skip hk (by decide))]
      exact ih h

theorem gv_lookup_other (entries : List (String × PyVal)) (a : String)
    (ha1 : (a == "version") = false)
    (ha2 : (a == "firmware_version") = false)
    (ha3 : (a == "newVersion") = false) :
    (listFlatMap gvEntry entries).lookup a = entries.lookup a := by
  induction entries with
  | nil => rfl
  | cons p es ih =>
    obtain ⟨k, w⟩ := p
    show (gvEntry (k, w) ++ listFlatMap gvEntry es).lookup a =
      ((k, w) :: es).lookup a
    rw [List.lookup_cons]
    cases hk : a == k with
    | true =>
      have hkeq : k = a := (eq_of_beq hk).symm
      rw [hkeq]
      have hv2 : (a == "version") = true → False := by
        intro hx; rw [ha1] at hx; exact Bool.false_ne_true hx
      have hn2 : (a == "newVersion") = true → False := by
        intro hx; rw [ha3] at hx; exact Bool.false_ne_true hx
      unfold gvEntry
      rw [if_neg hv2, if_neg hn2]
      rw [List.cons_append, List.lookup_cons]
      simp [hk, hkeq]
    | false =>
      rw [lookup_append_of_none (gv_entry_skip hk ha2)]
      exact ih

end EcowittHttp

namespace EcowittHttp

theorem fwOf_none {v : PyVal} (h : strUnderscore v = false) : fwOf v = .none := by
  cases v with
  | str s =>
    simp only [strUnderscore] at h
    simp only [fwOf]
    rw [if_neg (by rw [h]; exact Bool.false_ne_true)]
  | int n => rfl
  | float q => rfl
  | bool b => rfl
  | none => rfl

/-- C5: `parse_get_version` on a mapping whose version field is a string
containing an underscore sets `firmware_version` to the substring after the
last underscore; when the version value is not a string or has no
underscore, `firmware_version` is null and the version value is
stringified; every key other than the three transformed ones is preserved
unchanged; `newVersion` is coerced to int when possible and nulled
otherwise; and a non-mapping input always fails with the parse-error
kind. -/
theorem c5_parse_get_version :
    (∀ (entries : List (String × PyVal)) (s : String),
       entries.lookup "firmware_version" = none →
       entries.lookup "version" = some (.str s) →
       hasUnderscore s = true →
       exLookup (parse_get_version (.dict entries)) "firmware_version" =
         some (.str (String.mk (lastSeg s.toList)))) ∧
    (∀ (entries : List (String × PyVal)) (v : PyVal),
       entries.lookup "firmware_version" = none →
       entries.lookup "version" = some v →
       strUnderscore v = false →
       exLookup (parse_get_version (.dict entries)) "firmware_version" =
           some .none ∧
         exLookup (parse_get_version (.dict entries)) "version" =
           some (.str (pyStr v))) ∧
    (∀ (entries : List (String × PyVal)) (a : String),
       (a == "version") = false →
       (a == "firmware_version") = false →
       (a == "newVersion") = false →
       exLookup (parse_get_version (.dict entries)) a = entries.lookup a) ∧
    (∀ (entries : List (String × PyVal)) (v : PyVal),
       entries.lookup "newVersion" = some v →
       exLookup (parse_get_version (.dict entries)) "newVersion" =
         some (optIntToPy (toIntPy v))) ∧
    (∀ v : PyVal, isParseError (parse_get_version (.scalar v)) = true) := by
  refine ⟨?_, ?_, ?_, ?_, ?_⟩
  · intro entries s hnf hv hu
    have h := gv_lookup_fw entries (.str s) hnf hv
    have hfw : fwOf (.str s) = .str (String.mk (lastSeg s.toList)) := by
      simp only [fwOf]; rw [if_pos hu]
    rw [hfw] at h
    exact h
  · intro entries v hnf hv hns
    constructor
    · have h := gv_lookup_fw entries v hnf hv
      rw [fwOf_none hns] at h
      exact h
    · exact gv_lookup_version entries v hv
  · intro entries a h1 h2 h3
    exact gv_lookup_other entries a h1 h2 h3
  · intro entries v h
    exact gv_lookup_nv entries v h
  · intro v
    rfl

/-- Witness for C5 at the test suite's inputs: the normal firmware string
splits to V3.1.2; an integer version value 5 yields a null firmware version
and the stringified version value, with the platform field preserved; a
non-integer newVersion value is nulled and an integer-like one is coerced;
and a non-mapping response is a parse error. -/
theorem c5_witness :
    exLookup (parse_get_version (.dict
        [("version", .str "Version: GW2000C_V3.1.2"), ("newVersion", .str "1"),
         ("platform", .str "ecowitt")])) "firmware_version" =
      some (.str "V3.1.2") ∧
    exLookup (parse_get_version (.dict
        [("version", .int 5), ("newVersion", .str "1"),
         ("platform", .str "ecowitt")])) "firmware_version" = some .none ∧
    exLookup (parse_get_version (.dict
        [("version", .int 5), ("newVersion", .str "1"),
         ("platform", .str "ecowitt")])) "version" = some (.str "5") ∧
    exLookup (parse_get_version (.dict
        [("version", .int 5), ("newVersion", .str "1"),
         ("platform", .str "ecowitt")])) "platform" = some (.str "ecowitt") ∧
    exLookup (parse_get_version (.dict
        [("version", .str "Version: GW2000C_V3.1.2"),
         ("newVersion", .str "2.3a")])) "newVersion" = some .none ∧
    exLookup (parse_get_version (.dict
        [("version", .str "Version: GW2000C_V3.1.2"), ("newVersion", .str "1"),
         ("platform", .str "ecowitt")])) "newVersion" = some (.int 1) ∧
    isParseError (parse_get_version (.scalar (.str "test string"))) = true :=
  ⟨c5_parse_get_version.1
      [("version", .str "Version: GW2000C_V3.1.2"), ("newVersion", .str "1"),
       ("platform", .str "ecowitt")] "Version: GW2000C_V3.1.2"
      (by decide) (by decide) (by decide),
   (c5_parse_get_version.2.1
      [("version", .int 5), ("newVersion", .str "1"),
       ("platform", .str "ecowitt")] (.int 5)
      (by decide) (by decide) (by decide)).1,
   (c5_parse_get_version.2.1
      [("version", .int 5), ("newVersion", .str "1"),
       ("platform", .str "ecowitt")] (.int 5)
      (by decide) (by decide) (by decide)).2,
   (c5_parse_get_version.2.2.1
      [("version", .int 5), ("newVersion", .str "1"),
       ("platform", .str "ecowitt")] "platform"
      (by decide) (by decide) (by decide)).trans (by decide),
   c5_parse_get_version.2.2.2.1
      [("version", .str "Version: GW2000C_V3.1.2"), ("newVersion", .str "2.3a")]
      (.str "2.3a") (by decide),
   c5_parse_get_version.2.2.2.1
      [("version", .str "Version: GW2000C_V3.1.2"), ("newVersion", .str "1"),
       ("platform", .str "ecowitt")] (.str "1") (by decide),
   c5_parse_get_version.2.2.2.2 (.str "test string")⟩

end EcowittHttp

namespace EcowittHttp

theorem ws_lookup (entries : List (String × PyVal)) (k : String) :
    (entries.map (fun p => (p.1, wsFieldTransform p.1 p.2))).lookup k =
      (entries.lookup k).map (wsFieldTransform k) := by
  induction entries with
  | nil => rfl
  | cons p es ih =>
    obtain ⟨k2, w⟩ := p
    rw [List.map_cons, List.lookup_cons, List.lookup_cons]
    cases hk : k == k2 with
    | true =>
      have : k2 = k := (eq_of_beq hk).symm
      subst this
      rfl
    | false => exact ih

theorem exLookup_ws (entries : List (String × PyVal)) (k : String) :
    exLookup (parse_get_ws_settings (.dict entries)) k =
      (entries.lookup k).map (wsFieldTransform k) :=
  ws_lookup entries k

/-- C6: `parse_get_ws_settings` emits an output key exactly when the
corresponding input key is present (never materializing an absent key);
each numeric field independently becomes the int coercion of its input,
which is null exactly when the coercion fails; the Customized field gets
the boolean coercion under which the disable string maps to False and
numeric values map to null; the Protocol and platform fields pass through
verbatim exactly when they are strings and are nulled otherwise; and a
non-mapping input always fails with the parse-error kind. -/
theorem c6_parse_get_ws_settings :
    (∀ (entries : List (String × PyVal)) (k : String),
       (exLookup (parse_get_ws_settings (.dict entries)) k).isSome =
         (entries.lookup k).isSome) ∧
    (∀ (entries : List (String × PyVal)) (k : String) (v : PyVal),
       k ∈ wsIntFields →
       entries.lookup k = some v →
       exLookup (parse_get_ws_settings (.dict entries)) k =
         some (optIntToPy (toIntPy v))) ∧
    (∀ (entries : List (String × PyVal)) (v : PyVal),
       entries.lookup "Customized" = some v →
       exLookup (parse_get_ws_settings (.dict entries)) "Customized" =
         some (customizedTransform v)) ∧
    (customizedTransform (.str "disable") = .bool false ∧
     (∀ n : Int, customizedTransform (.int n) = .none) ∧
     (∀ q : ℚ, customizedTransform (.float q) = .none)) ∧
    (∀ (entries : List (String × PyVal)) (k : String) (v : PyVal),
       k = "Protocol" ∨ k = "platform" →
       entries.lookup k = some v →
       exLookup (parse_get_ws_settings (.dict entries)) k =
         some (strPassthrough v)) ∧
    ((∀ s : String, strPassthrough (.str s) = .str s) ∧
     (∀ n : Int, strPassthrough (.int n) = .none) ∧
     (∀ q : ℚ, strPassthrough (.float q) = .none) ∧
     strPassthrough .none = .none) ∧
    (∀ v : PyVal, isParseError (parse_get_ws_settings (.scalar v)) = true) := by
  refine ⟨?_, ?_, ?_, ?_, ?_, ?_, ?_⟩
  · intro entries k
    rw [exLookup_ws]
    cases entries.lookup k <;> rfl
  · intro entries k v hk h
    rw [exLookup_ws, h]
    have hcont : wsIntFields.contains k = true := List.elem_iff.mpr hk
    show some (wsFieldTransform k v) = _
    unfold wsFieldTransform
    rw [if_pos hcont]
  · intro entries v h
    rw [exLookup_ws, h]
    rfl
  · exact ⟨rfl, fun n => rfl, fun q => rfl⟩
  · intro entries k v hk h
    rw [exLookup_ws, h]
    rcases hk with hk | hk <;> subst hk <;> rfl
  · exact ⟨fun s => rfl, fun n => rfl, fun q => rfl, rfl⟩
  · intro v
    rfl

/-- Witness for C6 at the test suite's inputs: an absent platform key stays
absent and a present one stays present; a numeric field coerces a string
digit and nulls a non-numeric string; the Customized field maps disable to
False and the number 5 to null; the Protocol field passes a string through
and nulls the number 5; and a non-mapping response is a parse error. -/
theorem c6_witness :
    (exLookup (parse_get_ws_settings (.dict [("ost_interval", .str "1")]))
        "platform").isSome = false ∧
    (exLookup (parse_get_ws_settings (.dict [("platform", .str "ecowitt")]))
        "platform").isSome = true ∧
    exLookup (parse_get_ws_settings (.dict [("ecowitt_port", .str "80")]))
      "ecowitt_port" = some (.int 80) ∧
    exLookup (parse_get_ws_settings (.dict [("ecowitt_port", .str "abc")]))
      "ecowitt_port" = some .none ∧
    exLookup (parse_get_ws_settings (.dict [("Customized", .str "disable")]))
      "Customized" = some (.bool false) ∧
    exLookup (parse_get_ws_settings (.dict [("Customized", .int 5)]))
      "Customized" = some .none ∧
    exLookup (parse_get_ws_settings (.dict [("Protocol", .str "ecowitt")]))
      "Protocol" = some (.str "ecowitt") ∧
    exLookup (parse_get_ws_settings (.dict [("Protocol", .int 5)]))
      "Protocol" = some .none ∧
    isParseError (parse_get_ws_settings (.scalar (.str "test string"))) = true :=
  ⟨(c6_parse_get_ws_settings.1 [("ost_interval", .str "1")] "platform").trans
      (by decide),
   (c6_parse_get_ws_settings.1 [("platform", .str "ecowitt")] "platform").trans
      (by decide),
   (c6_parse_get_ws_settings.2.1 [("ecowitt_port", .str "80")] "ecowitt_port"
      (.str "80") (by decide) (by decide)).trans (by decide),
   (c6_parse_get_ws_settings.2.1 [("ecowitt_port", .str "abc")] "ecowitt_port"
      (.str "abc") (by decide) (by decide)).trans (by decide),
   (c6_parse_get_ws_settings.2.2.1 [("Customized", .str "disable")]
      (.str "disable") (by decide)).trans (by decide),
   (c6_parse_get_ws_settings.2.2.1 [("Customized", .int 5)]
      (.int 5) (by decide)).trans (by decide),
   (c6_parse_get_ws_settings.2.2.2.2.1 [("Protocol", .str "ecowitt")] "Protocol"
      (.str "ecowitt") (Or.inl rfl) (by decide)).trans (by decide),
   (c6_parse_get_ws_settings.2.2.2.2.1 [("Protocol", .int 5)] "Protocol"
      (.int 5) (Or.inl rfl) (by decide)).trans (by decide),
   c6_parse_get_ws_settings.2.2.2.2.2.2 (.str "test string")⟩

/-- C10: `parse_get_ws_settings` accepts non-string numeric inputs for its
numeric fields: an integer-valued ost_interval passes through unchanged and
a float-valued one is truncated toward zero to an int; in particular the
float value 15.2 yields the int 15. -/
theorem c10_numeric_passthrough :
    (∀ (entries : List (String × PyVal)) (n : Int),
       entries.lookup "ost_interval" = some (.int n) →
       exLookup (parse_get_ws_settings (.dict entries)) "ost_interval" =
         some (.int n)) ∧
    (∀ (entries : List (String × PyVal)) (q : ℚ),
       entries.lookup "ost_interval" = some (.float q) →
       exLookup (parse_get_ws_settings (.dict entries)) "ost_interval" =
         some (.int (ratTrunc q))) ∧
    exLookup (parse_get_ws_settings (.dict [("ost_interval", .float (mkRat 76 5))]))
      "ost_interval" = some (.int 15) := by
  refine ⟨?_, ?_, by decide⟩
  · intro entries n h
    rw [exLookup_ws, h]
    rfl
  · intro entries q h
    rw [exLookup_ws, h]
    rfl

/-- Witness for C10: an int-valued ost_interval of 10 passes through and
the float value 15.2 truncates to 15. -/
theorem c10_witness :
    exLookup (parse_get_ws_settings (.dict [("ost_interval", .int 10)]))
      "ost_interval" = some (.int 10) ∧
    exLookup (parse_get_ws_settings (.dict [("ost_interval", .float (mkRat 76 5))]))
      "ost_interval" = some (.int 15) :=
  ⟨c10_numeric_passthrough.1 [("ost_interval", .int 10)] 10 (by decide),
   (c10_numeric_passthrough.2.1 [("ost_interval", .float (mkRat 76 5))]
      (mkRat 76 5) (by decide)).trans (by decide)⟩

end EcowittHttp

namespace EcowittHttp

theorem lookup_none_of_no_key {l : List (Int × String)} {a : Int}
    (h : ∀ p ∈ l, p.1 = a → False) : l.lookup a = none := by
  induction l with
  | nil => rfl
  | cons p es ih =>
    obtain ⟨k, w⟩ := p
    rw [List.lookup_cons]
    cases hk : a == k with
    | true =>
      exact absurd (eq_of_beq hk).symm
        (fun he => h (k, w) (List.mem_cons_self _ _) he)
    | false => exact ih (fun p2 hp he => h p2 (List.mem_cons_of_mem _ hp) he)

/-- C8: the Sensor Registry's static address table maps address 26 to the
composite id wh57; every address key of the table lies within 0 to 69
inclusive; and any integer outside 0 to 69 has no entry. -/
theorem c8_sensor_address :
    sensor_address.lookup 26 = some "wh57" ∧
    (∀ p ∈ sensor_address, 0 ≤ p.1 ∧ p.1 ≤ 69) ∧
    (∀ a : Int, a < 0 ∨ 69 < a → sensor_address.lookup a = none) := by
  refine ⟨by decide, by decide, ?_⟩
  intro a ha
  refine lookup_none_of_no_key ?_
  intro p hp he
  have hb : 0 ≤ p.1 ∧ p.1 ≤ 69 := by
    revert hp
    have : ∀ p2 ∈ sensor_address, 0 ≤ p2.1 ∧ p2.1 ≤ 69 := by decide
    exact this p
  rw [he] at hb
  rcases ha with ha | ha
  · exact absurd hb.1 (by omega)
  · exact absurd hb.2 (by omega)

/-- Witness for C8: lookups just outside the address domain, at 70 and at
-1, find no entry. -/
theorem c8_witness :
    sensor_address.lookup 70 = none ∧ sensor_address.lookup (-1) = none :=
  ⟨c8_sensor_address.2.2 70 (Or.inr (by norm_num)),
   c8_sensor_address.2.2 (-1) (Or.inl (by norm_num))⟩

end EcowittHttp

namespace EcowittHttp

theorem mem_view {l : List (String × SensorRecord)} {f : SensorRecord → Bool}
    {cid : String} :
    cid ∈ (l.filter (fun p => f p.2)).map Prod.fst ↔
      ∃ r, (cid, r) ∈ l ∧ f r = true := by
  constructor
  · intro h
    obtain ⟨p, hp, hfst⟩ := List.mem_map.mp h
    obtain ⟨k, r⟩ := p
    obtain ⟨hmem, hf⟩ := List.mem_filter.mp hp
    subst hfst
    exact ⟨r, hmem, hf⟩
  · rintro ⟨r, hmem, hf⟩
    exact List.mem_map.mpr ⟨(cid, r), List.mem_filter.mpr ⟨hmem, hf⟩, rfl⟩

theorem mem_keys {l : List (String × SensorRecord)} {cid : String} :
    cid ∈ l.map Prod.fst ↔ ∃ r, (cid, r) ∈ l := by
  constructor
  · intro h
    obtain ⟨p, hp, hfst⟩ := List.mem_map.mp h
    obtain ⟨k, r⟩ := p
    subst hfst
    exact ⟨r, hp⟩
  · rintro ⟨r, hmem⟩
    exact List.mem_map.mpr ⟨(cid, r), hmem, rfl⟩

theorem nodup_keys_eq {l : List (String × SensorRecord)} {k : String}
    {a b : SensorRecord} (hnd : (l.map Prod.fst).Nodup)
    (ha : (k, a) ∈ l) (hb : (k, b) ∈ l) : a = b := by
  induction l with
  | nil => simp at ha
  | cons p es ih =>
    rw [List.map_cons, List.nodup_cons] at hnd
    rcases List.mem_cons.mp ha with ha1 | ha1
    · rcases List.mem_cons.mp hb with hb1 | hb1
      · rw [← ha1] at hb1
        injection hb1 with h1 h2
        exact h2.symm
      · exfalso
        apply hnd.1
        rw [← ha1]
        exact List.mem_map.mpr ⟨(k, b), hb1, rfl⟩
    · rcases List.mem_cons.mp hb with hb1 | hb1
      · exfalso
        apply hnd.1
        rw [← hb1]
        exact List.mem_map.mpr ⟨(k, a), ha1, rfl⟩
      · exact ih hnd.2 ha1 hb1

theorem mem_enabled {t : SensorTable} {cid : String} :
    cid ∈ enabledSensors t ↔
      ∃ r, (cid, r) ∈ flattenTable t ∧ isEnabledRec r = true := mem_view

theorem mem_disabled {t : SensorTable} {cid : String} :
    cid ∈ disabledSensors t ↔
      ∃ r, (cid, r) ∈ flattenTable t ∧ (!isEnabledRec r) = true :=
  mem_view (f := fun r => !isEnabledRec r)

theorem mem_learning {t : SensorTable} {cid : String} :
    cid ∈ learningSensors t ↔
      ∃ r, (cid, r) ∈ flattenTable t ∧ isLearningRec r = true := mem_view

theorem mem_connected {t : SensorTable} {cid : String} :
    cid ∈ connectedSensors t ↔
      ∃ r, (cid, r) ∈ flattenTable t ∧ isConnectedRec r = true := mem_view

theorem mem_all {t : SensorTable} {cid : String} :
    cid ∈ allSensors t ↔ ∃ r, (cid, r) ∈ flattenTable t := mem_keys

/-- C7: over every sensor-table snapshot whose composite ids are distinct,
the enabled and disabled views partition the all view (every composite id
is in exactly one of the two); a sensor is in the enabled view exactly when
its raw id, lower-cased, is not in the not-registered sentinel set; the
learning view holds exactly the sensors reporting the
registration-in-progress sentinel id; the connected view holds exactly the
enabled sensors with nonzero signal; and the connected view is contained in
the enabled view. -/
theorem c7_sensor_views (t : SensorTable)
    (hnd : (allSensors t).Nodup) :
    (∀ cid, cid ∈ allSensors t ↔
       (cid ∈ enabledSensors t ∨ cid ∈ disabledSensors t)) ∧
    (∀ cid, cid ∈ enabledSensors t → cid ∈ disabledSensors t → False) ∧
    (∀ cid r, (cid, r) ∈ flattenTable t →
       (cid ∈ enabledSensors t ↔
         not_registered.contains (lowerStr r.id.toList) = false)) ∧
    (∀ cid r, (cid, r) ∈ flattenTable t →
       (cid ∈ learningSensors t ↔
         lowerStr r.id.toList = learning_sentinel)) ∧
    (∀ cid r, (cid, r) ∈ flattenTable t →
       (cid ∈ connectedSensors t ↔
         (cid ∈ enabledSensors t ∧ r.signal ≠ 0))) ∧
    (∀ cid, cid ∈ connectedSensors t → cid ∈ enabledSensors t) := by
  have hndf : ((flattenTable t).map Prod.fst).Nodup := hnd
  refine ⟨?_, ?_, ?_, ?_, ?_, ?_⟩
  · intro cid
    constructor
    · intro h
      obtain ⟨r, hr⟩ := mem_all.mp h
      cases he : isEnabledRec r with
      | true => exact Or.inl (mem_enabled.mpr ⟨r, hr, he⟩)
      | false =>
        refine Or.inr (mem_disabled.mpr ⟨r, hr, ?_⟩)
        rw [he]
        rfl
    · intro h
      rcases h with h | h
      · obtain ⟨r, hr, _⟩ := mem_enabled.mp h
        exact mem_all.mpr ⟨r, hr⟩
      · obtain ⟨r, hr, _⟩ := mem_disabled.mp h
        exact mem_all.mpr ⟨r, hr⟩
  · intro cid h1 h2
    obtain ⟨r1, hr1, he1⟩ := mem_enabled.mp h1
    obtain ⟨r2, hr2, he2⟩ := mem_disabled.mp h2
    have hre : r1 = r2 := nodup_keys_eq hndf hr1 hr2
    rw [Bool.not_eq_true'] at he2
    rw [hre, he2] at he1
    exact Bool.false_ne_true he1
  · intro cid r hr
    constructor
    · intro h
      obtain ⟨r2, hr2, he2⟩ := mem_enabled.mp h
      have hre : r2 = r := nodup_keys_eq hndf hr2 hr
      rw [hre] at he2
      unfold isEnabledRec at he2
      rw [Bool.not_eq_eq_eq_not] at he2
      exact he2
    · intro h
      refine mem_enabled.mpr ⟨r, hr, ?_⟩
      unfold isEnabledRec
      rw [h]
      rfl
  · intro cid r hr
    constructor
    · intro h
      obtain ⟨r2, hr2, he2⟩ := mem_learning.mp h
      have hre : r2 = r := nodup_keys_eq hndf hr2 hr
      rw [hre] at he2
      unfold isLearningRec at he2
      exact eq_of_beq he2
    · intro h
      refine mem_learning.mpr ⟨r, hr, ?_⟩
      unfold isLearningRec
      rw [h]
      exact beq_self_eq_true _
  · intro cid r hr
    constructor
    · intro h
      obtain ⟨r2, hr2, he2⟩ := mem_connected.mp h
      have hre : r2 = r := nodup_keys_eq hndf hr2 hr
      rw [hre] at he2
      unfold isConnectedRec at he2
      rw [Bool.and_eq_true] at he2
      refine ⟨mem_enabled.mpr ⟨r, hr, he2.1⟩, ?_⟩
      have hb := he2.2
      rw [bne_iff_ne] at hb
      exact hb
    · rintro ⟨h1, h2⟩
      obtain ⟨r2, hr2, he2⟩ := mem_enabled.mp h1
      have hre : r2 = r := nodup_keys_eq hndf hr2 hr
      rw [hre] at he2
      refine mem_connected.mpr ⟨r, hr, ?_⟩
      unfold isConnectedRec
      rw [Bool.and_eq_true]
      exact ⟨he2, bne_iff_ne.mpr h2⟩
  · intro cid h
    obtain ⟨r, hr, he⟩ := mem_connected.mp h
    unfold isConnectedRec at he
    rw [Bool.and_eq_true] at he
    exact mem_enabled.mpr ⟨r, hr, he.1⟩

/-- Witness for C7 at the test suite's sensor table: its composite ids are
distinct, the all view splits into the enabled and disabled views, the
learning view is exactly wh45 and the connected view is exactly wh41_ch1,
which is enabled. -/
theorem c7_witness :
    ("wh45" ∈ allSensors testSensorTable ↔
      ("wh45" ∈ enabledSensors testSensorTable ∨
       "wh45" ∈ disabledSensors testSensorTable)) ∧
    ("wh41_ch1" ∈ learningSensors testSensorTable ↔
      lowerStr "C497".toList = learning_sentinel) ∧
    ("wh41_ch1" ∈ connectedSensors testSensorTable →
      "wh41_ch1" ∈ enabledSensors testSensorTable) :=
  ⟨(c7_sensor_views testSensorTable (by decide)).1 "wh45",
   (c7_sensor_views testSensorTable (by decide)).2.2.2.1 "wh41_ch1"
     ⟨22, "C497", some 2, 4⟩ (by decide),
   (c7_sensor_views testSensorTable (by decide)).2.2.2.2.2 "wh41_ch1"⟩

end EcowittHttp

namespace EcowittHttp

theorem pairs_append {a a2 b b2 : List (String × SensorRecord)}
    (ha : pairsCaseEquiv a a2 = true) (hb : pairsCaseEquiv b b2 = true) :
    pairsCaseEquiv (a ++ b) (a2 ++ b2) = true := by
  induction a generalizing a2 with
  | nil =>
    cases a2 with
    | nil => exact hb
    | cons q qs => exact absurd ha (by simp [pairsCaseEquiv])
  | cons p xs ih =>
    cases a2 with
    | nil => exact absurd ha (by simp [pairsCaseEquiv])
    | cons q qs =>
      simp only [pairsCaseEquiv, Bool.and_eq_true] at ha
      rw [List.cons_append, List.cons_append]
      simp only [pairsCaseEquiv, Bool.and_eq_true]
      exact ⟨ha.1, ih ha.2⟩

theorem pairs_map_channel {xs ys : List (String × SensorRecord)}
    (h : pairsCaseEquiv xs ys = true) (m : String) :
    pairsCaseEquiv (xs.map (fun p => (m ++ "_" ++ p.1, p.2)))
      (ys.map (fun p => (m ++ "_" ++ p.1, p.2))) = true := by
  induction xs generalizing ys with
  | nil =>
    cases ys with
    | nil => rfl
    | cons q qs => exact absurd h (by simp [pairsCaseEquiv])
  | cons p xs2 ih =>
    cases ys with
    | nil => exact absurd h (by simp [pairsCaseEquiv])
    | cons q qs =>
      simp only [pairsCaseEquiv, Bool.and_eq_true] at h
      rw [List.map_cons, List.map_cons]
      simp only [pairsCaseEquiv, Bool.and_eq_true]
      refine ⟨⟨?_, h.1.2⟩, ih h.2⟩
      rw [eq_of_beq h.1.1]
      exact beq_self_eq_true _

theorem entry_flatten {e e2 : SensorEntry} (h : entryCaseEquiv e e2 = true)
    (m : String) :
    pairsCaseEquiv (flattenEntry m e) (flattenEntry m e2) = true := by
  cases e with
  | single r =>
    cases e2 with
    | single r2 =>
      simp only [entryCaseEquiv] at h
      simp only [flattenEntry, pairsCaseEquiv, Bool.and_eq_true]
      exact ⟨⟨beq_self_eq_true _, h⟩, by trivial⟩
    | channels ys => exact absurd h (by simp [entryCaseEquiv])
  | channels xs =>
    cases e2 with
    | single r2 => exact absurd h (by simp [entryCaseEquiv])
    | channels ys =>
      simp only [entryCaseEquiv] at h
      simp only [flattenEntry]
      exact pairs_map_channel h m

theorem table_flatten {t t2 : SensorTable} (h : tableCaseEquiv t t2 = true) :
    pairsCaseEquiv (flattenTable t) (flattenTable t2) = true := by
  induction t generalizing t2 with
  | nil =>
    cases t2 with
    | nil => rfl
    | cons q qs => exact absurd h (by simp [tableCaseEquiv])
  | cons p xs ih =>
    cases t2 with
    | nil => exact absurd h (by simp [tableCaseEquiv])
    | cons q qs =>
      simp only [tableCaseEquiv, Bool.and_eq_true] at h
      show pairsCaseEquiv (flattenEntry p.1 p.2 ++ listFlatMap _ xs)
        (flattenEntry q.1 q.2 ++ listFlatMap _ qs) = true
      have he : pairsCaseEquiv (flattenEntry p.1 p.2) (flattenEntry q.1 q.2) = true := by
        rw [eq_of_beq h.1.1]
        exact entry_flatten h.1.2 q.1
      exact pairs_append he (ih h.2)

theorem view_eq_of_pairs (f : SensorRecord → Bool)
    (hf : ∀ r r2, recCaseEquiv r r2 = true → f r = f r2) :
    ∀ l l2, pairsCaseEquiv l l2 = true →
      (l.filter (fun p => f p.2)).map Prod.fst =
        (l2.filter (fun p => f p.2)).map Prod.fst := by
  intro l
  induction l with
  | nil =>
    intro l2 h
    cases l2 with
    | nil => rfl
    | cons q qs => exact absurd h (by simp [pairsCaseEquiv])
  | cons p xs ih =>
    intro l2 h
    cases l2 with
    | nil => exact absurd h (by simp [pairsCaseEquiv])
    | cons q qs =>
      simp only [pairsCaseEquiv, Bool.and_eq_true] at h
      rw [List.filter_cons, List.filter_cons]
      rw [hf p.2 q.2 h.1.2]
      cases hq : f q.2 with
      | true =>
        rw [if_pos rfl, if_pos rfl, List.map_cons, List.map_cons,
            eq_of_beq h.1.1, ih qs h.2]
      | false =>
        rw [if_neg Bool.false_ne_true, if_neg Bool.false_ne_true]
        exact ih qs h.2

theorem rec_equiv_lower {r r2 : SensorRecord} (h : recCaseEquiv r r2 = true) :
    lowerStr r.id.toList = lowerStr r2.id.toList := by
  unfold recCaseEquiv at h
  simp only [Bool.and_eq_true] at h
  exact eq_of_beq h.1.1.2

theorem rec_equiv_signal {r r2 : SensorRecord} (h : recCaseEquiv r r2 = true) :
    r.signal = r2.signal := by
  unfold recCaseEquiv at h
  simp only [Bool.and_eq_true] at h
  exact eq_of_beq h.2

/-- C9: the enabled, disabled and learning classifications depend only on
the lower-cased raw sensor id, so two snapshots whose raw ids differ only
in letter case produce identical views; in particular a record with the
uppercase id FFFFFFFF or FFFFFFFE is classified not registered (and
FFFFFFFF as learning) even though the not-registered sentinel constant
contains only the lowercase strings, neither uppercase id being a member of
it. -/
theorem c9_case_insensitive :
    (∀ t t2 : SensorTable, tableCaseEquiv t t2 = true →
       enabledSensors t = enabledSensors t2 ∧
       disabledSensors t = disabledSensors t2 ∧
       learningSensors t = learningSensors t2) ∧
    (∀ (a : Nat) (b : Option Int) (s : Nat),
       isEnabledRec ⟨a, "FFFFFFFF", b, s⟩ = false ∧
       isEnabledRec ⟨a, "FFFFFFFE", b, s⟩ = false ∧
       isLearningRec ⟨a, "FFFFFFFF", b, s⟩ = true) ∧
    (("FFFFFFFF" ∈ not_registered → False) ∧
     ("FFFFFFFE" ∈ not_registered → False)) := by
  refine ⟨?_, ?_, by decide⟩
  · intro t t2 h
    have hp := table_flatten h
    refine ⟨?_, ?_, ?_⟩
    · exact view_eq_of_pairs isEnabledRec
        (fun r r2 hr => by unfold isEnabledRec; rw [rec_equiv_lower hr])
        (flattenTable t) (flattenTable t2) hp
    · exact view_eq_of_pairs (fun r => !isEnabledRec r)
        (fun r r2 hr => by
          show (!isEnabledRec r) = (!isEnabledRec r2)
          unfold isEnabledRec
          rw [rec_equiv_lower hr])
        (flattenTable t) (flattenTable t2) hp
    · exact view_eq_of_pairs isLearningRec
        (fun r r2 hr => by unfold isLearningRec; rw [rec_equiv_lower hr])
        (flattenTable t) (flattenTable t2) hp
  · intro a b s
    exact ⟨rfl, rfl, rfl⟩

/-- Witness for C9: the test suite's sensor table, whose raw ids are
uppercase, is case-equivalent to its lowercase-id variant and produces the
same enabled, disabled and learning views. -/
theorem c9_witness :
    enabledSensors testSensorTable = enabledSensors
      [("wh45", .single ⟨39, "ffffffff", Option.none, 0⟩),
       ("wh41", .channels
         [("ch1", ⟨22, "c497", some 2, 4⟩),
          ("ch2", ⟨23, "fffffffe", Option.none, 0⟩)])] ∧
    learningSensors testSensorTable = learningSensors
      [("wh45", .single ⟨39, "ffffffff", Option.none, 0⟩),
       ("wh41", .channels
         [("ch1", ⟨22, "c497", some 2, 4⟩),
          ("ch2", ⟨23, "fffffffe", Option.none, 0⟩)])] :=
  ⟨(c9_case_insensitive.1 testSensorTable
      [("wh45", .single ⟨39, "ffffffff", Option.none, 0⟩),
       ("wh41", .channels
         [("ch1", ⟨22, "c497", some 2, 4⟩),
          ("ch2", ⟨23, "fffffffe", Option.none, 0⟩)])] (by decide)).1,
   (c9_case_insensitive.1 testSensorTable
      [("wh45", .single ⟨39, "ffffffff", Option.none, 0⟩),
       ("wh41", .channels
         [("ch1", ⟨22, "c497", some 2, 4⟩),
          ("ch2", ⟨23, "fffffffe", Option.none, 0⟩)])] (by decide)).2.2⟩

end EcowittHttp

namespace EcowittHttp

/-! ## Model validation against the repository test suite

Closed evaluations of the modelled parser on the concrete inputs and
expected outputs of `HttpParserTestCase` and `EcowittSensorsTestCase`. -/

/-- Validation: the modelled parser reproduces the metric-data expectations
of the test suite for temperature, humidity, direction, wind speed, rain
rate and light observations. -/
theorem model_check_obs_metric :
    parse_obs_value "val"
      [("id", "0x03"), ("val", "26.5"), ("unit", "C"), ("battery", "0")]
      "group_temperature" (some device_units_metric) =
      .ok ⟨mkRat 53 2, "degree_C", "group_temperature"⟩ ∧
    parse_obs_value "val" [("id", "0x07"), ("val", "56%")]
      "group_humidity" (some device_units_metric) =
      .ok ⟨mkRat 56 1, "percent", "group_humidity"⟩ ∧
    parse_obs_value "val" [("id", "0x0A"), ("val", "272")]
      "group_direction" (some device_units_metric) =
      .ok ⟨mkRat 272 1, "degree_compass", "group_direction"⟩ ∧
    parse_obs_value "val" [("id", "0x0B"), ("val", "4.20 km/h")]
      "group_speed" (some device_units_metric) =
      .ok ⟨mkRat 21 5, "km_per_hour", "group_speed"⟩ ∧
    parse_obs_value "val" [("id", "0x0E"), ("val", "2.2 mm/Hr")]
      "group_rainrate" (some device_units_metric) =
      .ok ⟨mkRat 11 5, "mm_per_hour", "group_rainrate"⟩ ∧
    parse_obs_value "val" [("id", "0x15"), ("val", "157.38 W/m2")]
      "group_illuminance" (some device_units_metric) =
      .ok ⟨mkRat 15738 100, "watt_per_meter_squared", "group_illuminance"⟩ := by
  refine ⟨?_, ?_, ?_, ?_, ?_, ?_⟩ <;> decide

/-- Validation: the modelled `parse_get_version` reproduces the test
suite's expected full outputs for the normal response and for the
integer-valued version response. -/
theorem model_check_get_version :
    parse_get_version (.dict
      [("version", .str "Version: GW2000C_V3.1.2"), ("newVersion", .str "1"),
       ("platform", .str "ecowitt")]) =
      .ok [("version", .str "Version: GW2000C_V3.1.2"),
           ("firmware_version", .str "V3.1.2"),
           ("newVersion", .int 1),
           ("platform", .str "ecowitt")] ∧
    parse_get_version (.dict
      [("version", .int 5), ("newVersion", .str "1"),
       ("platform", .str "ecowitt")]) =
      .ok [("version", .str "5"), ("firmware_version", .none),
           ("newVersion", .int 1), ("platform", .str "ecowitt")] := by
  exact ⟨by decide, by decide⟩

/-- Validation: the modelled `parse_get_ws_settings` reproduces the test
suite's expected output on a representative portion of the normal
response. -/
theorem model_check_get_ws_settings :
    parse_get_ws_settings (.dict
      [("platform", .str "ecowitt"), ("ost_interval", .str "1"),
       ("sta_mac", .str "E8:68:E7:12:9D:D7"), ("Customized", .str "disable"),
       ("Protocol", .str "ecowitt"), ("ecowitt_port", .str "80"),
       ("ecowitt_upload", .str "30"), ("usr_wu_port", .str "80"),
       ("usr_wu_upload", .str "300")]) =
      .ok [("platform", .str "ecowitt"), ("ost_interval", .int 1),
           ("sta_mac", .str "E8:68:E7:12:9D:D7"), ("Customized", .bool false),
           ("Protocol", .str "ecowitt"), ("ecowitt_port", .int 80),
           ("ecowitt_upload", .int 30), ("usr_wu_port", .int 80),
           ("usr_wu_upload", .int 300)] := by decide

/-- Validation: the modelled sensor registry reproduces the test suite's
expected aggregate views on its sensor-table snapshot (as id sets, in
flatten order rather than the sorted order the suite prints). -/
theorem model_check_sensor_views :
    allSensors testSensorTable = ["wh45", "wh41_ch1", "wh41_ch2"] ∧
    enabledSensors testSensorTable = ["wh41_ch1"] ∧
    disabledSensors testSensorTable = ["wh45", "wh41_ch2"] ∧
    learningSensors testSensorTable = ["wh45"] ∧
    connectedSensors testSensorTable = ["wh41_ch1"] := by
  refine ⟨?_, ?_, ?_, ?_, ?_⟩ <;> decide

end EcowittHttp
